import Mathlib

/-!
Verification of the GoCube BLE library core pipeline.

Shallow embedding of the Go sources:
* frame codec       — `internal/gocube/moves.go` (`ParseMessage`, `BuildCommand`)
* payload decoder   — `decoder.go` (`DecodeRotation`, `quaternionToFaces`) and
                      `internal/protocol/decoder.go` (`quaternionToFaces`)
* move model        — `pkg/types/move.go` (`Merge`) and `move.go` (`Inverse`)
* puzzle state      — `cube.go` (facelet grid, move application, phases)
* progress tracker  — `tracker.go` / `internal/cube` tracker

Go bytes are modelled as `Nat` with explicit `% 256` where the Go byte
arithmetic wraps; byte buffers are `List Nat`.  Fallible Go functions
return a sum type; the Go runtime panic that `ParseMessage` can hit on a
degenerate frame is modelled as a distinguished outcome.
-/

/-- Errors returned by `ParseMessage` (the `errors.New` values in
`internal/gocube/moves.go`). -/
inductive ParseError
  | msgTooShort
  | invalidStart
  | invalidLength
  | invalidEnd
  | invalidChecksum
  deriving DecidableEq, Repr

/-- Outcome of `ParseMessage`: a parsed message (type byte and payload),
a returned error, or a Go runtime panic (out-of-range slice). -/
inductive ParseOutcome
  | ok (msgType : Nat) (payload : List Nat)
  | err (e : ParseError)
  | panics
  deriving DecidableEq, Repr

/-- `ParseMessage` from `internal/gocube/moves.go`.

Frame format: `[0x2A] [length] [type] [payload...] [checksum] [0x0D 0x0A]`.
The translation follows the Go statement by statement; byte reads are
`List.getD` (every read the Go code performs is in bounds once the length
checks have passed).  The Go expression `data[3:checksumIdx]` panics when
`3 > checksumIdx`, i.e. when `checksumIdx = 2` (the earlier guard already
rejected `checksumIdx < 2`); that case is the `panics` outcome. -/
def ParseMessage (data : List Nat) : ParseOutcome :=
  if data.length < 5 then .err .msgTooShort
  else if data.getD 0 0 ≠ 0x2A then .err .invalidStart
  else
    let length := data.getD 1 0
    let expectedLen := 2 + length
    if data.length < expectedLen then .err .invalidLength
    else
      let checksumIdx := length - 1
      if checksumIdx < 2 then .err .msgTooShort
      else if data.getD (checksumIdx + 1) 0 ≠ 0x0D ∨ data.getD (checksumIdx + 2) 0 ≠ 0x0A then
        .err .invalidEnd
      else if ((data.take checksumIdx).sum) % 256 ≠ data.getD checksumIdx 0 then
        .err .invalidChecksum
      else if checksumIdx < 3 then .panics
      else .ok (data.getD 2 0) ((data.drop 3).take (checksumIdx - 3))

/-- `BuildCommand` from `internal/gocube/moves.go`: fixed six-byte
zero-payload command frame. -/
def BuildCommand (cmdCode : Nat) : List Nat :=
  [0x2A, 0x01, cmdCode, (0x2A + 0x01 + cmdCode) % 256, 0x0D, 0x0A]

/-- A general inbound frame with an arbitrary checksum byte, per the
inbound layout `0x2A, L, kind, payload, checksum, 0x0D, 0x0A` with
`L = payload length + 4` (total frame length `L + 2`). -/
def frameBytes (kind : Nat) (payload : List Nat) (chk : Nat) : List Nat :=
  0x2A :: (payload.length + 4) :: kind :: payload ++ [chk, 0x0D, 0x0A]

/-- The checksum the inbound layout prescribes: sum of every byte before
the checksum position, reduced mod 256. -/
def frameChecksum (kind : Nat) (payload : List Nat) : Nat :=
  (0x2A + (payload.length + 4) + kind + payload.sum) % 256

/-- A frame assembled with the correct checksum per the inbound layout. -/
def buildFrame (kind : Nat) (payload : List Nat) : List Nat :=
  frameBytes kind payload (frameChecksum kind payload)

/-! ## Payload decoder: rotation pairs (`decoder.go`, identical copy in
`internal/protocol/decoder.go`) -/

/-- `RotationEvent` from `decoder.go`. -/
structure RotationEvent where
  faceCode : Nat
  centerOrientation : Nat
  clockwise : Bool
  color : String
  deriving DecidableEq, Repr

instance : Inhabited RotationEvent := ⟨⟨0, 0, true, ""⟩⟩

/-- The `colorNames` map from `decoder.go` (`map[byte]string`); `none`
models a missing key. -/
def colorNames (idx : Nat) : Option String :=
  if idx = 0 then some "blue"
  else if idx = 1 then some "green"
  else if idx = 2 then some "white"
  else if idx = 3 then some "yellow"
  else if idx = 4 then some "red"
  else if idx = 5 then some "orange"
  else none

/-- The loop body of `DecodeRotation`: consume the payload two bytes at a
time, failing on the first pair whose `faceCode / 2` misses `colorNames`.
The one-element case is unreachable when the caller has checked the
payload length is even. -/
def decodeRotationLoop : List Nat → Except String (List RotationEvent)
  | [] => .ok []
  | [_] => .ok []
  | faceCode :: centerOrient :: rest =>
    match colorNames (faceCode / 2) with
    | none => .error "unknown color index"
    | some colorName =>
      match decodeRotationLoop rest with
      | .error e => .error e
      | .ok events =>
        .ok ({ faceCode := faceCode, centerOrientation := centerOrient,
               clockwise := faceCode % 2 == 0, color := colorName } :: events)

/-- `DecodeRotation` from `decoder.go`: reject odd-length payloads, then
decode byte pairs. -/
def DecodeRotation (payload : List Nat) : Except String (List RotationEvent) :=
  if payload.length % 2 ≠ 0 then .error "rotation payload must have even length"
  else decodeRotationLoop payload

/-- The event the claim prescribes for a byte pair: `clockwise` iff the
first byte is even, colour looked up at the first byte divided by two. -/
def pairEvent (faceCode centerOrient : Nat) : RotationEvent :=
  { faceCode := faceCode, centerOrientation := centerOrient,
    clockwise := faceCode % 2 == 0, color := (colorNames (faceCode / 2)).getD "" }

/-! ## Move model -/

/-- `Move` from `pkg/types/move.go`: face a string, turn a Go `int`
(+1 clockwise quarter, −1 counter-clockwise quarter, +2 half),
and a millisecond timestamp. -/
structure TypesMove where
  face : String
  turn : Int
  timestamp : Int
  deriving DecidableEq, Repr

/-- `Move.Merge` from `pkg/types/move.go`.  `none` models the `nil`
return (different faces, or full cancellation).  Go's `%` on `int`
truncates toward zero, which is `Int.tmod`. -/
def TypesMove.Merge (m other : TypesMove) : Option TypesMove :=
  if m.face ≠ other.face then none
  else
    let combined := m.turn + other.turn
    let combined := Int.tmod (combined + 2) 4 - 2
    let combined := if combined > 2 then combined - 4
                    else if combined < -2 then combined + 4
                    else combined
    if combined = 0 then none
    else
      let combined := if combined = -2 then 2 else combined
      some { face := m.face, turn := combined, timestamp := other.timestamp }

/-- The normalisation the claim prescribes for a non-cancelling sum:
`((sum mod 4) + 4) mod 4` (mathematical mod), mapping 3 to −1. -/
def claimNormTurn (sum : Int) : Int :=
  let n := ((sum % 4) + 4) % 4
  if n = 3 then -1 else n

/-- `Move` from `move.go` (root package): face a string, turn a Go `int`.
The optional `time.Time` field carries no state and is omitted. -/
structure Move where
  face : String
  turn : Int
  deriving DecidableEq, Repr

/-- `Move.Inverse` from `move.go`: clockwise and counter-clockwise swap,
a half turn (and any other turn value) is unchanged. -/
def Move.Inverse (m : Move) : Move :=
  if m.turn = 1 then { m with turn := -1 }
  else if m.turn = -1 then { m with turn := 1 }
  else m

/-! ## Puzzle state (`cube.go`)

`Cube` is the `[6][9]Color` facelet grid; colours are modelled as `Nat`
(Go `Color` is a `byte`).  The Go methods mutate the receiver; here each
assignment `c.Facelets[f][i] = v` becomes a functional update, taken in
the source's statement order. -/

def white : Nat := 0
def yellow : Nat := 1
def green : Nat := 2
def blue : Nat := 3
def red : Nat := 4
def orange : Nat := 5

def cubeFaceU : Fin 6 := 0
def cubeFaceD : Fin 6 := 1
def cubeFaceF : Fin 6 := 2
def cubeFaceB : Fin 6 := 3
def cubeFaceR : Fin 6 := 4
def cubeFaceL : Fin 6 := 5

def Cube : Type := Fin 6 → Fin 9 → Nat

/-- One Go assignment `c.Facelets[f][i] = v`. -/
def setFacelet (c : Cube) (f : Fin 6) (i : Fin 9) (v : Nat) : Cube :=
  fun f' i' => if f' = f ∧ i' = i then v else c f' i'

/-- `rotateFaceCW` from `cube.go`: corner 4-cycle then edge 4-cycle on
the face's own cells, assignment by assignment. -/
def rotateFaceCW (c : Cube) (face : Fin 6) : Cube :=
  let temp := c face 0
  let c := setFacelet c face 0 (c face 6)
  let c := setFacelet c face 6 (c face 8)
  let c := setFacelet c face 8 (c face 2)
  let c := setFacelet c face 2 temp
  let temp := c face 1
  let c := setFacelet c face 1 (c face 3)
  let c := setFacelet c face 3 (c face 7)
  let c := setFacelet c face 7 (c face 5)
  setFacelet c face 5 temp

/-- `rotateFaceCCW` from `cube.go`. -/
def rotateFaceCCW (c : Cube) (face : Fin 6) : Cube :=
  let temp := c face 0
  let c := setFacelet c face 0 (c face 2)
  let c := setFacelet c face 2 (c face 8)
  let c := setFacelet c face 8 (c face 6)
  let c := setFacelet c face 6 temp
  let temp := c face 1
  let c := setFacelet c face 1 (c face 5)
  let c := setFacelet c face 5 (c face 7)
  let c := setFacelet c face 7 (c face 3)
  setFacelet c face 3 temp

/-- `cycle4` from `cube.go`: cycles four groups of three facelets.  The
Go parameters are `[3]int{face, index, 1}` triples whose third component
is unused; here each is a `(face, index)` pair.  The Go `c1 c2 c3` group
is renamed `e1 e2 e3` to avoid clashing with the cube argument. -/
def cycle4 (c : Cube) (a1 a2 a3 b1 b2 b3 e1 e2 e3 d1 d2 d3 : Fin 6 × Fin 9) : Cube :=
  let t1 := c a1.1 a1.2
  let t2 := c a2.1 a2.2
  let t3 := c a3.1 a3.2
  let c := setFacelet c a1.1 a1.2 (c d1.1 d1.2)
  let c := setFacelet c a2.1 a2.2 (c d2.1 d2.2)
  let c := setFacelet c a3.1 a3.2 (c d3.1 d3.2)
  let c := setFacelet c d1.1 d1.2 (c e1.1 e1.2)
  let c := setFacelet c d2.1 d2.2 (c e2.1 e2.2)
  let c := setFacelet c d3.1 d3.2 (c e3.1 e3.2)
  let c := setFacelet c e1.1 e1.2 (c b1.1 b1.2)
  let c := setFacelet c e2.1 e2.2 (c b2.1 b2.2)
  let c := setFacelet c e3.1 e3.2 (c b3.1 b3.2)
  let c := setFacelet c b1.1 b1.2 t1
  let c := setFacelet c b2.1 b2.2 t2
  setFacelet c b3.1 b3.2 t3

/-- `cycle4Edge` from `cube.go`: cycles four index-triples across four
faces. -/
def cycle4Edge (c : Cube) (f1 : Fin 6) (i1 : Fin 9 × Fin 9 × Fin 9)
    (f2 : Fin 6) (i2 : Fin 9 × Fin 9 × Fin 9)
    (f3 : Fin 6) (i3 : Fin 9 × Fin 9 × Fin 9)
    (f4 : Fin 6) (i4 : Fin 9 × Fin 9 × Fin 9) : Cube :=
  let t1 := c f1 i1.1
  let t2 := c f1 i1.2.1
  let t3 := c f1 i1.2.2
  let c := setFacelet c f1 i1.1 (c f4 i4.1)
  let c := setFacelet c f1 i1.2.1 (c f4 i4.2.1)
  let c := setFacelet c f1 i1.2.2 (c f4 i4.2.2)
  let c := setFacelet c f4 i4.1 (c f3 i3.1)
  let c := setFacelet c f4 i4.2.1 (c f3 i3.2.1)
  let c := setFacelet c f4 i4.2.2 (c f3 i3.2.2)
  let c := setFacelet c f3 i3.1 (c f2 i2.1)
  let c := setFacelet c f3 i3.2.1 (c f2 i2.2.1)
  let c := setFacelet c f3 i3.2.2 (c f2 i2.2.2)
  let c := setFacelet c f2 i2.1 t1
  let c := setFacelet c f2 i2.2.1 t2
  setFacelet c f2 i2.2.2 t3

/-- `cycleEdgesCW` from `cube.go`: the adjacency switch, case by case. -/
def cycleEdgesCW (c : Cube) (face : Fin 6) : Cube :=
  if face = cubeFaceU then
    cycle4 c (cubeFaceF, 0) (cubeFaceF, 1) (cubeFaceF, 2)
             (cubeFaceL, 0) (cubeFaceL, 1) (cubeFaceL, 2)
             (cubeFaceB, 0) (cubeFaceB, 1) (cubeFaceB, 2)
             (cubeFaceR, 0) (cubeFaceR, 1) (cubeFaceR, 2)
  else if face = cubeFaceD then
    cycle4 c (cubeFaceF, 6) (cubeFaceF, 7) (cubeFaceF, 8)
             (cubeFaceR, 6) (cubeFaceR, 7) (cubeFaceR, 8)
             (cubeFaceB, 6) (cubeFaceB, 7) (cubeFaceB, 8)
             (cubeFaceL, 6) (cubeFaceL, 7) (cubeFaceL, 8)
  else if face = cubeFaceF then
    cycle4Edge c cubeFaceU (6, 7, 8) cubeFaceR (0, 3, 6)
                 cubeFaceD (2, 1, 0) cubeFaceL (8, 5, 2)
  else if face = cubeFaceB then
    cycle4Edge c cubeFaceU (2, 1, 0) cubeFaceL (0, 3, 6)
                 cubeFaceD (6, 7, 8) cubeFaceR (8, 5, 2)
  else if face = cubeFaceR then
    cycle4Edge c cubeFaceU (2, 5, 8) cubeFaceB (6, 3, 0)
                 cubeFaceD (2, 5, 8) cubeFaceF (2, 5, 8)
  else if face = cubeFaceL then
    cycle4Edge c cubeFaceU (0, 3, 6) cubeFaceF (0, 3, 6)
                 cubeFaceD (0, 3, 6) cubeFaceB (8, 5, 2)
  else c

/-- `cycleEdgesCCW` from `cube.go`: three clockwise cycles. -/
def cycleEdgesCCW (c : Cube) (face : Fin 6) : Cube :=
  cycleEdgesCW (cycleEdgesCW (cycleEdgesCW c face) face) face

/-- `moveCW` from `cube.go`. -/
def moveCW (c : Cube) (face : Fin 6) : Cube :=
  cycleEdgesCW (rotateFaceCW c face) face

/-- `moveCCW` from `cube.go`. -/
def moveCCW (c : Cube) (face : Fin 6) : Cube :=
  cycleEdgesCCW (rotateFaceCCW c face) face

/-- `moveFace` from `cube.go`: dispatch on the turn value; any turn other
than 1, −1, 2 leaves the cube unchanged. -/
def moveFace (c : Cube) (face : Fin 6) (turn : Int) : Cube :=
  if turn = 1 then moveCW c face
  else if turn = -1 then moveCCW c face
  else if turn = 2 then moveCW (moveCW c face) face
  else c

/-- `moveFaceToCubeFace` from `cube.go` (and `typesFaceToFace` in the
`internal/cube` package, which is identical): any face string other than
the six known ones falls through to the `default` branch, `CubeFaceU`. -/
def moveFaceToCubeFace (f : String) : Fin 6 :=
  if f = "U" then cubeFaceU
  else if f = "D" then cubeFaceD
  else if f = "F" then cubeFaceF
  else if f = "B" then cubeFaceB
  else if f = "R" then cubeFaceR
  else if f = "L" then cubeFaceL
  else cubeFaceU

/-- `applyMove` from `cube.go`. -/
def applyMove (c : Cube) (m : Move) : Cube :=
  moveFace c (moveFaceToCubeFace m.face) m.turn

/-- `ApplyMoves` / `Apply`: apply a move sequence in order. -/
def applyMoves (c : Cube) : List Move → Cube
  | [] => c
  | m :: ms => applyMoves (applyMove c m) ms

/-- `faceToSolvedColor` from `cube.go`. -/
def faceToSolvedColor (f : Fin 6) : Nat :=
  if f = cubeFaceU then white
  else if f = cubeFaceD then yellow
  else if f = cubeFaceF then green
  else if f = cubeFaceB then blue
  else if f = cubeFaceR then red
  else if f = cubeFaceL then orange
  else white

/-- `NewCube` / `Reset` from `cube.go`: every cell of every face holds
that face's solved colour. -/
def solvedCube : Cube := fun f _ => faceToSolvedColor f

/-- `IsSolved` from `cube.go`. -/
def IsSolved (c : Cube) : Prop :=
  ∀ f : Fin 6, ∀ i : Fin 9, c f i = faceToSolvedColor f

instance (c : Cube) : Decidable (IsSolved c) :=
  inferInstanceAs (Decidable (∀ f : Fin 6, ∀ i : Fin 9, c f i = faceToSolvedColor f))

/-! ## Phase oracle (`cube.go` detection methods, `phase.go` ordinals) -/

def phaseScrambled : Nat := 0
def phaseWhiteCross : Nat := 1
def phaseFirstLayer : Nat := 2
def phaseSecondLayer : Nat := 3
def phaseYellowCross : Nat := 4
def phaseYellowCorners : Nat := 5
def phaseYellowOriented : Nat := 6
def phaseSolved : Nat := 7

/-- Boolean form of `IsSolved`, as used inside `detectPhase`. -/
def isSolvedB (c : Cube) : Bool :=
  decide (IsSolved c)

/-- `isWhiteCrossComplete` from `cube.go`. -/
def isWhiteCrossComplete (c : Cube) : Bool :=
  (c cubeFaceU 1 == white) && (c cubeFaceU 3 == white) &&
  (c cubeFaceU 5 == white) && (c cubeFaceU 7 == white) &&
  (c cubeFaceB 1 == c cubeFaceB 4) && (c cubeFaceL 1 == c cubeFaceL 4) &&
  (c cubeFaceR 1 == c cubeFaceR 4) && (c cubeFaceF 1 == c cubeFaceF 4)

/-- `isTopLayerComplete` from `cube.go`. -/
def isTopLayerComplete (c : Cube) : Bool :=
  isWhiteCrossComplete c &&
  decide (∀ i : Fin 9, c cubeFaceU i = white) &&
  (c cubeFaceF 0 == c cubeFaceF 4) && (c cubeFaceF 2 == c cubeFaceF 4) &&
  (c cubeFaceR 0 == c cubeFaceR 4) && (c cubeFaceR 2 == c cubeFaceR 4) &&
  (c cubeFaceB 0 == c cubeFaceB 4) && (c cubeFaceB 2 == c cubeFaceB 4) &&
  (c cubeFaceL 0 == c cubeFaceL 4) && (c cubeFaceL 2 == c cubeFaceL 4)

/-- `isMiddleLayerComplete` from `cube.go`. -/
def isMiddleLayerComplete (c : Cube) : Bool :=
  isTopLayerComplete c &&
  (c cubeFaceF 3 == c cubeFaceF 4) && (c cubeFaceF 5 == c cubeFaceF 4) &&
  (c cubeFaceR 3 == c cubeFaceR 4) && (c cubeFaceR 5 == c cubeFaceR 4) &&
  (c cubeFaceB 3 == c cubeFaceB 4) && (c cubeFaceB 5 == c cubeFaceB 4) &&
  (c cubeFaceL 3 == c cubeFaceL 4) && (c cubeFaceL 5 == c cubeFaceL 4)

/-- `isBottomCrossComplete` from `cube.go`. -/
def isBottomCrossComplete (c : Cube) : Bool :=
  isMiddleLayerComplete c &&
  (c cubeFaceD 1 == yellow) && (c cubeFaceD 3 == yellow) &&
  (c cubeFaceD 5 == yellow) && (c cubeFaceD 7 == yellow)

/-- `sameColors` from `cube.go`: the Go code compares occurrence counts,
which is multiset equality. -/
def sameColors (a b : List Nat) : Bool :=
  decide ((a : Multiset Nat) = (b : Multiset Nat))

/-- `areBottomCornersPositioned` from `cube.go`: each bottom corner's
three cells carry the expected colour multiset. -/
def areBottomCornersPositioned (c : Cube) : Bool :=
  isBottomCrossComplete c &&
  sameColors [c cubeFaceF 8, c cubeFaceR 6, c cubeFaceD 2] [green, red, yellow] &&
  sameColors [c cubeFaceR 8, c cubeFaceB 6, c cubeFaceD 8] [red, blue, yellow] &&
  sameColors [c cubeFaceB 8, c cubeFaceL 6, c cubeFaceD 6] [blue, orange, yellow] &&
  sameColors [c cubeFaceL 8, c cubeFaceF 6, c cubeFaceD 0] [orange, green, yellow]

/-- `areBottomCornersOriented` from `cube.go`. -/
def areBottomCornersOriented (c : Cube) : Bool :=
  areBottomCornersPositioned c &&
  decide (∀ i : Fin 9, c cubeFaceD i = yellow) &&
  (c cubeFaceF 6 == c cubeFaceF 4) && (c cubeFaceF 8 == c cubeFaceF 4) &&
  (c cubeFaceR 6 == c cubeFaceR 4) && (c cubeFaceR 8 == c cubeFaceR 4) &&
  (c cubeFaceB 6 == c cubeFaceB 4) && (c cubeFaceB 8 == c cubeFaceB 4) &&
  (c cubeFaceL 6 == c cubeFaceL 4) && (c cubeFaceL 8 == c cubeFaceL 4)

/-- `detectPhase` from `cube.go`: descending search, first predicate that
holds wins. -/
def detectPhase (c : Cube) : Nat :=
  if isSolvedB c then phaseSolved
  else if areBottomCornersOriented c then phaseYellowOriented
  else if areBottomCornersPositioned c then phaseYellowCorners
  else if isBottomCrossComplete c then phaseYellowCross
  else if isMiddleLayerComplete c then phaseSecondLayer
  else if isTopLayerComplete c then phaseFirstLayer
  else if isWhiteCrossComplete c then phaseWhiteCross
  else phaseScrambled

/-! ## Progress tracker (`tracker.go`; `internal/cube` has the identical
tracker).  The phase callback is modelled as an emission log: each
`checkPhaseTransition` returns the list of phases it reported (empty or
a single phase). -/

structure Tracker where
  cube : Cube
  lastPhase : Nat
  highestPhase : Nat

/-- `Reset` from `tracker.go`: solved cube, `lastPhase = Solved`,
`highestPhase = Scrambled`. -/
def resetTracker : Tracker :=
  { cube := solvedCube, lastPhase := phaseSolved, highestPhase := phaseScrambled }

/-- `checkPhaseTransition` from `tracker.go`: recompute the phase, store
it as `lastPhase`, and on a strict new high raise `highestPhase` and fire
the callback with the new phase. -/
def checkPhaseTransition (t : Tracker) : Tracker × List Nat :=
  let currentPhase := detectPhase t.cube
  let t := { t with lastPhase := currentPhase }
  if t.highestPhase < currentPhase then
    ({ t with highestPhase := currentPhase }, [currentPhase])
  else
    (t, [])

/-- `Tracker.ApplyMove` from `tracker.go`. -/
def trackerApplyMove (t : Tracker) (m : Move) : Tracker × List Nat :=
  checkPhaseTransition { t with cube := applyMove t.cube m }

/-- `Tracker.ApplyMoves`: run a move sequence, concatenating the callback
emissions. -/
def trackerRun (t : Tracker) : List Move → Tracker × List Nat
  | [] => (t, [])
  | m :: ms =>
    let step := trackerApplyMove t m
    let rest := trackerRun step.1 ms
    (rest.1, step.2 ++ rest.2)

/-- The oracle trace: the phase reported after each successive move of a
sequence, starting from cube state `c`. -/
def phaseTrace (c : Cube) : List Move → List Nat
  | [] => []
  | m :: ms =>
    let c := applyMove c m
    detectPhase c :: phaseTrace c ms

/-- The strictly-new high-water marks of a phase trace above an initial
watermark: the phases the claim says the callback must report. -/
def newHighs (hi : Nat) : List Nat → List Nat
  | [] => []
  | p :: ps => if hi < p then p :: newHighs p ps else newHighs hi ps

/-! ## Orientation decoding (`decoder.go` vs `internal/protocol/decoder.go`)

The Go code computes with `float64`; the embedding uses exact rational
arithmetic, which is the arithmetic the spec describes. -/

/-- `vectorToFace` from `decoder.go` (the copy in
`internal/protocol/decoder.go` is identical): dominant-axis test with
tie-break priority Y, then Z, then X. -/
def vectorToFace (x y z : ℚ) : String :=
  let absX := |x|
  let absY := |y|
  let absZ := |z|
  if absY ≥ absX ∧ absY ≥ absZ then
    if y > 0 then "U" else "D"
  else if absZ ≥ absX ∧ absZ ≥ absY then
    if z > 0 then "F" else "B"
  else if x > 0 then "R" else "L"

/-- `quaternionToFaces` from `decoder.go` (root package): rotates the up
and front reference vectors by the quaternion 'as received' — no
normalisation step. -/
def quaternionToFaces (x y z w : ℚ) : String × String :=
  let upX := 2 * (x * y - w * z)
  let upY := 1 - 2 * (x * x + z * z)
  let upZ := 2 * (y * z + w * x)
  let frontX := 2 * (x * z + w * y)
  let frontY := 2 * (y * z - w * x)
  let frontZ := 1 - 2 * (x * x + y * y)
  (vectorToFace upX upY upZ, vectorToFace frontX frontY frontZ)

/-- `quaternionToFaces` from `internal/protocol/decoder.go`: first
normalises the quaternion (`mag := sqrt(x²+y²+z²+w²); if mag > 0` divide
every component by `mag`), then computes the same rotated vectors.

Exact-arithmetic rendering: every term of the rotated-vector formulas is
a degree-two monomial in the components, so dividing each component by
`mag` divides each monomial by `mag² = s = x²+y²+z²+w²`; `mag > 0` holds
iff `s > 0`.  This keeps the computation inside `ℚ` (no square root)
while computing exactly the faces the normalised components yield. -/
def protocolQuaternionToFaces (x y z w : ℚ) : String × String :=
  let s := x * x + y * y + z * z + w * w
  if s > 0 then
    let upX := 2 * (x * y - w * z) / s
    let upY := 1 - 2 * (x * x + z * z) / s
    let upZ := 2 * (y * z + w * x) / s
    let frontX := 2 * (x * z + w * y) / s
    let frontY := 2 * (y * z - w * x) / s
    let frontZ := 1 - 2 * (x * x + y * y) / s
    (vectorToFace upX upY upZ, vectorToFace frontX frontY frontZ)
  else
    -- mag = 0: normalisation skipped, the raw formulas run unchanged
    quaternionToFaces x y z w

/-! ## Cube lemmas -/

/-- A counter-clockwise move undoes a clockwise move of the same face. -/
lemma moveCCW_moveCW (c : Cube) (face : Fin 6) : moveCCW (moveCW c face) face = c := by
  funext f i
  fin_cases face <;> fin_cases f <;> fin_cases i <;> rfl

/-- A clockwise move undoes a counter-clockwise move of the same face. -/
lemma moveCW_moveCCW (c : Cube) (face : Fin 6) : moveCW (moveCCW c face) face = c := by
  funext f i
  fin_cases face <;> fin_cases f <;> fin_cases i <;> rfl

/-- Four clockwise quarter-turns of one face restore any state. -/
lemma moveCW_four (c : Cube) (face : Fin 6) :
    moveCW (moveCW (moveCW (moveCW c face) face) face) face = c := by
  funext f i
  fin_cases face <;> fin_cases f <;> fin_cases i <;> rfl

/-- A clockwise move never touches a centre cell. -/
lemma moveCW_center (c : Cube) (face f : Fin 6) : moveCW c face f 4 = c f 4 := by
  fin_cases face <;> fin_cases f <;> rfl

/-- A counter-clockwise move never touches a centre cell. -/
lemma moveCCW_center (c : Cube) (face f : Fin 6) : moveCCW c face f 4 = c f 4 := by
  fin_cases face <;> fin_cases f <;> rfl

/-- `moveFace` never touches a centre cell, whatever the turn value. -/
lemma moveFace_center (c : Cube) (face : Fin 6) (t : Int) (f : Fin 6) :
    moveFace c face t f 4 = c f 4 := by
  unfold moveFace
  split_ifs
  · exact moveCW_center c face f
  · exact moveCCW_center c face f
  · rw [moveCW_center, moveCW_center]
  · rfl

/-- `applyMove` never touches a centre cell. -/
lemma applyMove_center (c : Cube) (m : Move) (f : Fin 6) :
    applyMove c m f 4 = c f 4 :=
  moveFace_center c (moveFaceToCubeFace m.face) m.turn f

/-- A whole move sequence never touches a centre cell. -/
lemma applyMoves_center : ∀ (ms : List Move) (c : Cube) (f : Fin 6),
    applyMoves c ms f 4 = c f 4
  | [], _, _ => rfl
  | m :: ms, c, f => (applyMoves_center ms (applyMove c m) f).trans (applyMove_center c m f)

/-- C7: for each of the six faces, applying that face's clockwise
quarter-turn move four times in succession to a solved cube returns the
cube to the solved state. -/
theorem claim7_four_quarter_turns_solve :
    IsSolved (applyMoves solvedCube [⟨"U", 1⟩, ⟨"U", 1⟩, ⟨"U", 1⟩, ⟨"U", 1⟩]) ∧
    IsSolved (applyMoves solvedCube [⟨"D", 1⟩, ⟨"D", 1⟩, ⟨"D", 1⟩, ⟨"D", 1⟩]) ∧
    IsSolved (applyMoves solvedCube [⟨"F", 1⟩, ⟨"F", 1⟩, ⟨"F", 1⟩, ⟨"F", 1⟩]) ∧
    IsSolved (applyMoves solvedCube [⟨"B", 1⟩, ⟨"B", 1⟩, ⟨"B", 1⟩, ⟨"B", 1⟩]) ∧
    IsSolved (applyMoves solvedCube [⟨"R", 1⟩, ⟨"R", 1⟩, ⟨"R", 1⟩, ⟨"R", 1⟩]) ∧
    IsSolved (applyMoves solvedCube [⟨"L", 1⟩, ⟨"L", 1⟩, ⟨"L", 1⟩, ⟨"L", 1⟩]) := by
  decide

/-- C9: for every cube state and every applied move (any face, any turn
in {+1, −1, +2}) the centre facelet (index 4) of every face is
unchanged; hence from a solved start every centre permanently holds its
face's solved colour. -/
theorem claim9_centers_invariant :
    (∀ (c : Cube) (m : Move), m.turn = 1 ∨ m.turn = -1 ∨ m.turn = 2 →
      ∀ f : Fin 6, applyMove c m f 4 = c f 4) ∧
    (∀ ms : List Move, (∀ m ∈ ms, m.turn = 1 ∨ m.turn = -1 ∨ m.turn = 2) →
      ∀ f : Fin 6, applyMoves solvedCube ms f 4 = faceToSolvedColor f) :=
  ⟨fun c m _ f => applyMove_center c m f,
   fun ms _ f => (applyMoves_center ms solvedCube f).trans rfl⟩

/-- Witness for C9 at a concrete state and move. -/
theorem claim9_centers_invariant_witness :
    applyMove solvedCube ⟨"R", 1⟩ cubeFaceF 4 = solvedCube cubeFaceF 4 :=
  claim9_centers_invariant.1 solvedCube ⟨"R", 1⟩ (Or.inl rfl) cubeFaceF

/-- C10: applying a recognised move and then its `Inverse` restores every
facelet of any starting state. -/
theorem claim10_inverse_restores (c : Cube) (m : Move)
    (_hface : m.face = "R" ∨ m.face = "L" ∨ m.face = "U" ∨ m.face = "D" ∨
             m.face = "F" ∨ m.face = "B")
    (hturn : m.turn = 1 ∨ m.turn = -1 ∨ m.turn = 2) :
    applyMove (applyMove c m) m.Inverse = c := by
  have hf : m.Inverse.face = m.face := by
    unfold Move.Inverse
    split_ifs <;> rfl
  rcases hturn with h | h | h
  · have hi : m.Inverse.turn = -1 := by simp [Move.Inverse, h]
    simp only [applyMove, hf, hi, h, moveFace]
    norm_num
    exact moveCCW_moveCW c _
  · have hi : m.Inverse.turn = 1 := by simp [Move.Inverse, h]
    simp only [applyMove, hf, hi, h, moveFace]
    norm_num
    exact moveCW_moveCCW c _
  · have hi : m.Inverse.turn = 2 := by simp [Move.Inverse, h]
    simp only [applyMove, hf, hi, h, moveFace]
    norm_num
    exact moveCW_four c _

/-- Witness for C10 at a concrete state and move. -/
theorem claim10_inverse_restores_witness :
    applyMove (applyMove solvedCube ⟨"R", 1⟩) (Move.Inverse ⟨"R", 1⟩) = solvedCube :=
  claim10_inverse_restores solvedCube ⟨"R", 1⟩ (Or.inl rfl) (Or.inl rfl)

/-- C5 counterexample: the move `{face: "X", turn: 1}` has an
unrecognised face, yet applied to the solved cube it changes facelet 0 of
the front face (the `default` branch maps the face to `CubeFaceU` and the
U turn runs), so it is not a no-op. -/
theorem claim5_counterexample :
    applyMove solvedCube ⟨"X", 1⟩ cubeFaceF 0 ≠ solvedCube cubeFaceF 0 := by
  decide

/-- C5 amended: applying a move whose face value is unrecognised is not a
no-op; the face falls through to the `default` branch and the move acts
exactly as the same turn of the U face. -/
theorem claim5_unknown_face_acts_as_U (c : Cube) (fc : String) (t : Int)
    (h : fc ∉ (["R", "L", "U", "D", "F", "B"] : List String)) :
    applyMove c ⟨fc, t⟩ = applyMove c ⟨"U", t⟩ := by
  simp only [List.mem_cons, List.mem_nil_iff, or_false, not_or] at h
  obtain ⟨hR, hL, hU, hD, hF, hB⟩ := h
  simp only [applyMove, moveFaceToCubeFace]
  rw [if_neg hU, if_neg hD, if_neg hF, if_neg hB, if_neg hR, if_neg hL]
  norm_num

/-- Witness for the amended C5 at a concrete state and move. -/
theorem claim5_unknown_face_acts_as_U_witness :
    applyMove solvedCube ⟨"X", 1⟩ = applyMove solvedCube ⟨"U", 1⟩ :=
  claim5_unknown_face_acts_as_U solvedCube "X" 1 (by decide)

/-! ## Merge algebra -/

/-- C3: for same-face moves with turns in {+1, −1, +2}, `Merge` cancels
exactly when the signed turn sum is 0 mod 4 (equivalently the turns are
+1 and −1 in either order, or both +2); otherwise it yields one move with
the first move's face and the turn `((sum mod 4) + 4) mod 4` with 3
mapped to −1; two clockwise quarter-turns merge to a half-turn. -/
theorem claim3_merge_algebra (a b : TypesMove) (hface : a.face = b.face)
    (ha : a.turn = 1 ∨ a.turn = -1 ∨ a.turn = 2)
    (hb : b.turn = 1 ∨ b.turn = -1 ∨ b.turn = 2) :
    (TypesMove.Merge a b = none ↔ (a.turn + b.turn) % 4 = 0) ∧
    ((a.turn + b.turn) % 4 = 0 ↔
      (a.turn = 1 ∧ b.turn = -1) ∨ (a.turn = -1 ∧ b.turn = 1) ∨
      (a.turn = 2 ∧ b.turn = 2)) ∧
    ((a.turn + b.turn) % 4 ≠ 0 →
      TypesMove.Merge a b = some ⟨a.face, claimNormTurn (a.turn + b.turn), b.timestamp⟩) ∧
    (a.turn = 1 → b.turn = 1 →
      TypesMove.Merge a b = some ⟨a.face, 2, b.timestamp⟩) := by
  obtain ⟨af, an, ats⟩ := a
  obtain ⟨bf, bn, bts⟩ := b
  simp only at hface ha hb ⊢
  subst hface
  rcases ha with h | h | h <;> rcases hb with h' | h' | h' <;> subst h <;> subst h' <;>
    refine ⟨?_, ?_, ?_, ?_⟩ <;>
    simp [TypesMove.Merge, claimNormTurn] <;> decide

/-- Witness for C3: two clockwise quarter-turns of R merge to R2. -/
theorem claim3_merge_algebra_witness :
    TypesMove.Merge ⟨"R", 1, 0⟩ ⟨"R", 1, 5⟩ = some ⟨"R", 2, 5⟩ :=
  (claim3_merge_algebra ⟨"R", 1, 0⟩ ⟨"R", 1, 5⟩ rfl (Or.inl rfl) (Or.inl rfl)).2.2.2 rfl rfl

/-! ## Tracker lemmas -/

/-- `checkPhaseTransition` never changes the cube. -/
lemma checkPhaseTransition_cube (t : Tracker) :
    (checkPhaseTransition t).1.cube = t.cube := by
  simp only [checkPhaseTransition]
  split_ifs <;> rfl

/-- `checkPhaseTransition` raises the watermark to the max of the old
watermark and the freshly detected phase. -/
lemma checkPhaseTransition_highest (t : Tracker) :
    (checkPhaseTransition t).1.highestPhase =
      max t.highestPhase (detectPhase t.cube) := by
  simp only [checkPhaseTransition]
  split_ifs with h
  · simp [Nat.max_eq_right h.le]
  · simp [Nat.max_eq_left (not_lt.mp h)]

/-- `checkPhaseTransition` fires the callback exactly on a strict new
high, carrying the new phase. -/
lemma checkPhaseTransition_log (t : Tracker) :
    (checkPhaseTransition t).2 =
      if t.highestPhase < detectPhase t.cube then [detectPhase t.cube] else [] := by
  simp only [checkPhaseTransition]
  split_ifs <;> rfl

/-- Running the tracker drives the cube exactly through `applyMoves`. -/
lemma trackerRun_cube : ∀ (ms : List Move) (t : Tracker),
    (trackerRun t ms).1.cube = applyMoves t.cube ms
  | [], _ => rfl
  | m :: ms, t => by
    show (trackerRun (trackerApplyMove t m).1 ms).1.cube = _
    rw [trackerRun_cube ms]
    unfold trackerApplyMove
    rw [checkPhaseTransition_cube]
    rfl

/-- The tracker watermark is the running max of the oracle trace. -/
lemma trackerRun_highest : ∀ (ms : List Move) (t : Tracker),
    (trackerRun t ms).1.highestPhase = (phaseTrace t.cube ms).foldl max t.highestPhase
  | [], _ => rfl
  | m :: ms, t => by
    show (trackerRun (trackerApplyMove t m).1 ms).1.highestPhase = _
    rw [trackerRun_highest ms]
    unfold trackerApplyMove
    rw [checkPhaseTransition_cube, checkPhaseTransition_highest]
    simp [phaseTrace]

/-- The emission log of a run is exactly the strictly-new high-water
marks of the oracle trace. -/
lemma trackerRun_log : ∀ (ms : List Move) (t : Tracker),
    (trackerRun t ms).2 = newHighs t.highestPhase (phaseTrace t.cube ms)
  | [], _ => rfl
  | m :: ms, t => by
    show (trackerApplyMove t m).2 ++ (trackerRun (trackerApplyMove t m).1 ms).2 = _
    rw [trackerRun_log ms]
    unfold trackerApplyMove
    rw [checkPhaseTransition_cube, checkPhaseTransition_highest, checkPhaseTransition_log]
    simp only [phaseTrace, newHighs]
    split_ifs with h
    · simp [Nat.max_eq_right h.le]
    · simp [Nat.max_eq_left (not_lt.mp h)]

/-- `newHighs` is strictly increasing and stays above its watermark. -/
lemma newHighs_chain : ∀ (l : List Nat) (hi : Nat),
    List.Chain' (· < ·) (newHighs hi l) ∧ ∀ x ∈ newHighs hi l, hi < x
  | [], hi => ⟨List.chain'_nil, by simp [newHighs]⟩
  | p :: ps, hi => by
    unfold newHighs
    split_ifs with h
    · refine ⟨List.chain'_cons'.mpr ⟨?_, (newHighs_chain ps p).1⟩, ?_⟩
      · intro y hy
        exact (newHighs_chain ps p).2 y (List.mem_of_mem_head? hy)
      · intro x hx
        rcases List.mem_cons.mp hx with rfl | hx'
        · exact h
        · exact h.trans ((newHighs_chain ps p).2 x hx')
    · exact ⟨(newHighs_chain ps hi).1, fun x hx => (newHighs_chain ps hi).2 x hx⟩

/-- Folding `max` never goes below the seed. -/
lemma le_foldl_max : ∀ (l : List Nat) (a : Nat), a ≤ l.foldl max a
  | [], a => le_refl a
  | p :: ps, a => le_trans (le_max_left a p) (le_foldl_max ps (max a p))

/-- The oracle trace of a truncated move sequence is the truncated
trace. -/
lemma phaseTrace_take : ∀ (ms : List Move) (k : Nat) (c : Cube),
    phaseTrace c (ms.take k) = (phaseTrace c ms).take k
  | [], k, c => by simp [phaseTrace]
  | _ :: _, 0, _ => rfl
  | m :: ms, k + 1, c => by
    simp only [List.take_succ_cons, phaseTrace]
    rw [phaseTrace_take ms k]

/-- One more step can only raise a running max. -/
lemma foldl_max_take_succ (l : List Nat) (a k : Nat) :
    (l.take k).foldl max a ≤ (l.take (k + 1)).foldl max a := by
  rw [List.take_succ, List.foldl_append]
  cases l[k]? with
  | none => simp
  | some p => simpa using le_max_left _ p

/-- C4: after a reset, the tracker watermark is non-decreasing move by
move, equals the maximum phase the oracle has reported since the reset,
and the phase callback log is exactly the strictly-new high-water marks
of the oracle trace (strictly increasing, so one callback per new
phase and none on regression). -/
theorem claim4_tracker_watermark (ms : List Move) :
    (∀ k : Nat, (trackerRun resetTracker (ms.take k)).1.highestPhase ≤
        (trackerRun resetTracker (ms.take (k + 1))).1.highestPhase) ∧
    (trackerRun resetTracker ms).1.highestPhase =
        (phaseTrace solvedCube ms).foldl max phaseScrambled ∧
    (trackerRun resetTracker ms).2 = newHighs phaseScrambled (phaseTrace solvedCube ms) ∧
    List.Chain' (· < ·) (trackerRun resetTracker ms).2 := by
  refine ⟨?_, ?_, ?_, ?_⟩
  · intro k
    rw [trackerRun_highest, trackerRun_highest]
    rw [phaseTrace_take, phaseTrace_take]
    exact foldl_max_take_succ _ _ _
  · exact trackerRun_highest ms resetTracker
  · exact trackerRun_log ms resetTracker
  · rw [trackerRun_log]
    exact (newHighs_chain _ _).1

/-! ## Rotation decoder lemmas -/

/-- The `colorNames` lookup fails exactly above index 5. -/
lemma colorNames_eq_none (idx : Nat) : colorNames idx = none ↔ 6 ≤ idx := by
  unfold colorNames
  split_ifs <;> simp_all <;> omega

/-- The decode loop fails exactly when some complete pair's first byte,
divided by two, is an unknown colour index. -/
lemma decodeRotationLoop_error_iff : ∀ p : List Nat,
    (∃ e, decodeRotationLoop p = .error e) ↔
      ∃ i, 2 * i + 1 < p.length ∧ 5 < p.getD (2 * i) 0 / 2
  | [] => by
    simp [decodeRotationLoop]
  | [x] => by
    simp only [decodeRotationLoop]
    constructor
    · rintro ⟨e, he⟩
      exact Except.noConfusion he
    · rintro ⟨i, hi, -⟩
      simp only [List.length_singleton] at hi
      omega
  | a :: b :: rest => by
    simp only [decodeRotationLoop]
    cases hcn : colorNames (a / 2) with
    | none =>
      have ha : 6 ≤ a / 2 := (colorNames_eq_none _).mp hcn
      dsimp only
      constructor
      · intro _
        refine ⟨0, ?_, ?_⟩
        · simp only [List.length_cons]
          omega
        · rw [List.getD_cons_zero]
          omega
      · intro _
        exact ⟨"unknown color index", rfl⟩
    | some nm =>
      have ha : ¬ 6 ≤ a / 2 := by
        intro h6
        rw [(colorNames_eq_none _).mpr h6] at hcn
        exact Option.noConfusion hcn
      cases hrest : decodeRotationLoop rest with
      | error e =>
        dsimp only
        obtain ⟨i, hi, hgt⟩ := (decodeRotationLoop_error_iff rest).mp ⟨e, hrest⟩
        constructor
        · intro _
          refine ⟨i + 1, ?_, ?_⟩
          · simp only [List.length_cons]
            omega
          · have h2 : 2 * (i + 1) = 2 * i + 1 + 1 := by omega
            rw [h2, List.getD_cons_succ, List.getD_cons_succ]
            exact hgt
        · intro _
          exact ⟨e, rfl⟩
      | ok evs =>
        dsimp only
        have hnoerr : ∀ i, 2 * i + 1 < rest.length → rest.getD (2 * i) 0 / 2 ≤ 5 := by
          intro i hi
          by_contra hgt
          obtain ⟨e, he⟩ := (decodeRotationLoop_error_iff rest).mpr ⟨i, hi, by omega⟩
          rw [hrest] at he
          exact Except.noConfusion he
        constructor
        · rintro ⟨e, he⟩
          exact Except.noConfusion he
        · rintro ⟨i, hi, hgt⟩
          cases i with
          | zero =>
            rw [List.getD_cons_zero] at hgt
            omega
          | succ j =>
            have h2 : 2 * (j + 1) = 2 * j + 1 + 1 := by omega
            rw [h2, List.getD_cons_succ, List.getD_cons_succ] at hgt
            have hlen : 2 * j + 1 < rest.length := by
              simp only [List.length_cons] at hi
              omega
            exact absurd hgt (not_lt.mpr (hnoerr j hlen))

/-- The decode loop succeeds with one event per complete pair, built per
the claim's rule. -/
lemma decodeRotationLoop_ok_spec : ∀ (p : List Nat) (evs : List RotationEvent),
    decodeRotationLoop p = .ok evs →
    evs.length = p.length / 2 ∧
    ∀ i, i < evs.length →
      evs.getD i default = pairEvent (p.getD (2 * i) 0) (p.getD (2 * i + 1) 0)
  | [], evs, h => by
    simp [decodeRotationLoop] at h
    subst h
    simp
  | [x], evs, h => by
    simp [decodeRotationLoop] at h
    subst h
    simp
  | a :: b :: rest, evs, h => by
    simp only [decodeRotationLoop] at h
    cases hcn : colorNames (a / 2) with
    | none =>
      rw [hcn] at h
      exact Except.noConfusion h
    | some nm =>
      rw [hcn] at h
      cases hrest : decodeRotationLoop rest with
      | error e =>
        rw [hrest] at h
        exact Except.noConfusion h
      | ok evs' =>
        rw [hrest] at h
        have hev := Except.ok.inj h
        have ih := decodeRotationLoop_ok_spec rest evs' hrest
        subst hev
        constructor
        · simp only [List.length_cons, ih.1]
          omega
        · intro i hi
          cases i with
          | zero =>
            simp [pairEvent, hcn]
          | succ j =>
            rw [List.getD_cons_succ]
            have e1 : (a :: b :: rest).getD (2 * (j + 1)) 0 = rest.getD (2 * j) 0 := by
              have h2 : 2 * (j + 1) = 2 * j + 1 + 1 := by omega
              rw [h2, List.getD_cons_succ, List.getD_cons_succ]
            have e2 : (a :: b :: rest).getD (2 * (j + 1) + 1) 0 = rest.getD (2 * j + 1) 0 := by
              have h3 : 2 * (j + 1) + 1 = 2 * j + 1 + 1 + 1 := by omega
              rw [h3, List.getD_cons_succ, List.getD_cons_succ]
            rw [e1, e2]
            exact ih.2 j (by simpa using hi)

/-- C2: `DecodeRotation` errs exactly on odd payload length or an
unknown colour index (first pair byte divided by two above 5); on
success it returns one event per byte pair, clockwise iff the first byte
is even, colour determined by the first byte divided by two. -/
theorem claim2_decode_rotation (p : List Nat) :
    ((∃ e, DecodeRotation p = .error e) ↔
      p.length % 2 = 1 ∨ ∃ i, 2 * i < p.length ∧ 5 < p.getD (2 * i) 0 / 2) ∧
    (∀ evs, DecodeRotation p = .ok evs →
      evs.length = p.length / 2 ∧
      ∀ i, i < evs.length →
        evs.getD i default = pairEvent (p.getD (2 * i) 0) (p.getD (2 * i + 1) 0)) := by
  unfold DecodeRotation
  split_ifs with hodd
  · constructor
    · constructor
      · intro _
        left
        omega
      · intro _
        exact ⟨_, rfl⟩
    · intro evs hevs
      exact hevs.elim
  · have heven : p.length % 2 = 0 := by omega
    constructor
    · rw [decodeRotationLoop_error_iff]
      constructor
      · rintro ⟨i, hi, hgt⟩
        exact Or.inr ⟨i, by omega, hgt⟩
      · rintro (hodd1 | ⟨i, hi, hgt⟩)
        · omega
        · exact ⟨i, by omega, hgt⟩
    · exact fun evs h => decodeRotationLoop_ok_spec p evs h

/-- Witness for C2 at the concrete payload `[0x08, 0x00]`. -/
theorem claim2_decode_rotation_witness :
    ([pairEvent 8 0] : List RotationEvent).length = ([8, 0] : List Nat).length / 2 ∧
    ∀ i, i < ([pairEvent 8 0] : List RotationEvent).length →
      ([pairEvent 8 0] : List RotationEvent).getD i default =
        pairEvent (([8, 0] : List Nat).getD (2 * i) 0)
          (([8, 0] : List Nat).getD (2 * i + 1) 0) :=
  (claim2_decode_rotation [8, 0]).2 [pairEvent 8 0] rfl

/-! ## Frame codec theorems -/

/-- The five-byte frame `2A 03 2D 0D 0A`: its length byte is 3, so the
checksum sits at offset 2, the terminator bytes at offsets 3 and 4, and
the checksum equals `(0x2A + 0x03) % 256 = 0x2D`. -/
def panicFrame : List Nat := [0x2A, 0x03, 0x2D, 0x0D, 0x0A]

/-- C1: `panicFrame` satisfies every acceptance condition of the claim —
at least 5 bytes, prefix `0x2A`, at least `L+2` bytes, terminator
`0x0D 0x0A` at offsets `L` and `L+1`, and the byte at offset `L−1` equal
to the sum of bytes 0 through `L−2` mod 256 — so the claim says
`ParseMessage` succeeds on it; the Go code instead evaluates
`data[3:2]` and panics (slice bounds out of range), returning neither a
message nor an error. -/
theorem claim1_parse_panics :
    (5 ≤ panicFrame.length ∧
     panicFrame.getD 0 0 = 0x2A ∧
     panicFrame.getD 1 0 + 2 ≤ panicFrame.length ∧
     panicFrame.getD (panicFrame.getD 1 0) 0 = 0x0D ∧
     panicFrame.getD (panicFrame.getD 1 0 + 1) 0 = 0x0A ∧
     panicFrame.getD (panicFrame.getD 1 0 - 1) 0 =
       (panicFrame.take (panicFrame.getD 1 0 - 1)).sum % 256) ∧
    ParseMessage panicFrame = .panics := by
  decide

/-- Evaluating `ParseMessage` on an inbound-layout frame with an
arbitrary checksum byte: the frame is accepted exactly when the byte is
the prescribed checksum, and a wrong byte is reported as a checksum
error. -/
lemma ParseMessage_frameBytes (kind : Nat) (payload : List Nat) (chk : Nat) :
    ParseMessage (frameBytes kind payload chk) =
      if frameChecksum kind payload = chk then .ok kind payload
      else .err .invalidChecksum := by
  have hsplit : frameBytes kind payload chk =
      (0x2A :: (payload.length + 4) :: kind :: payload) ++ [chk, 0x0D, 0x0A] := rfl
  set L := payload.length with hL
  have hlen : (frameBytes kind payload chk).length = L + 6 := by
    rw [hsplit]
    simp [hL]
  have hg1 : (frameBytes kind payload chk).getD 1 0 = L + 4 := rfl
  have hgchk : (frameBytes kind payload chk).getD (L + 3) 0 = chk := by
    rw [hsplit, List.getD_append_right _ _ _ _ (by simp [hL])]
    have h1 : L + 3 - (0x2A :: (L + 4) :: kind :: payload).length = 0 := by
      simp [hL]
    rw [h1]
    rfl
  have hg13 : (frameBytes kind payload chk).getD (L + 3 + 1) 0 = 0x0D := by
    rw [hsplit, List.getD_append_right _ _ _ _ (by simp [hL])]
    have h1 : L + 3 + 1 - (0x2A :: (L + 4) :: kind :: payload).length = 1 := by
      simp [hL]
    rw [h1]
    rfl
  have hg14 : (frameBytes kind payload chk).getD (L + 3 + 2) 0 = 0x0A := by
    rw [hsplit, List.getD_append_right _ _ _ _ (by simp [hL])]
    have h1 : L + 3 + 2 - (0x2A :: (L + 4) :: kind :: payload).length = 2 := by
      simp [hL]
    rw [h1]
    rfl
  have htake : (frameBytes kind payload chk).take (L + 3) =
      0x2A :: (L + 4) :: kind :: payload := by
    rw [hsplit]
    exact List.take_left' (by simp [hL])
  have hdrop : (frameBytes kind payload chk).drop 3 = payload ++ [chk, 0x0D, 0x0A] := rfl
  have htake2 : (payload ++ [chk, 0x0D, 0x0A]).take (L + 3 - 3) = payload := by
    have h1 : L + 3 - 3 = L := by omega
    rw [h1]
    exact List.take_left' rfl
  simp only [ParseMessage]
  rw [hg1, hlen]
  have hidx : L + 4 - 1 = L + 3 := by omega
  rw [hidx]
  rw [if_neg (by omega), if_neg (by simp [hsplit]), if_neg (by omega), if_neg (by omega)]
  rw [hg13, hg14, if_neg (by simp)]
  rw [htake, hgchk]
  have hsum : (0x2A :: (L + 4) :: kind :: payload).sum =
      0x2A + (L + 4) + kind + payload.sum := by
    simp [List.sum_cons]
    omega
  rw [hsum]
  by_cases hc : frameChecksum kind payload = chk
  · rw [if_neg (by simpa [frameChecksum, hL] using hc), if_pos hc, if_neg (by omega)]
    rw [hdrop, htake2]
    rfl
  · rw [if_pos (by simpa [frameChecksum, hL] using hc), if_neg hc]

/-- C8: a frame assembled per the inbound layout with the prescribed
checksum is accepted by `ParseMessage` with the original kind and
payload; flipping any single bit of the checksum byte makes
`ParseMessage` reject the frame with a checksum error. -/
theorem claim8_checksum_roundtrip (kind : Nat) (payload : List Nat)
    (_hkind : kind ≤ 255) (_hplen : payload.length ≤ 251)
    (_hbytes : ∀ b ∈ payload, b ≤ 255) :
    ParseMessage (buildFrame kind payload) = .ok kind payload ∧
    ∀ k : Nat, k < 8 →
      ParseMessage (frameBytes kind payload (frameChecksum kind payload ^^^ 2 ^ k)) =
        .err .invalidChecksum := by
  constructor
  · rw [buildFrame, ParseMessage_frameBytes, if_pos rfl]
  · intro k _
    rw [ParseMessage_frameBytes, if_neg]
    intro h
    have h2 : frameChecksum kind payload ^^^ frameChecksum kind payload =
        frameChecksum kind payload ^^^ (frameChecksum kind payload ^^^ 2 ^ k) := by
      rw [← h]
    rw [Nat.xor_self, ← Nat.xor_assoc, Nat.xor_self, Nat.zero_xor] at h2
    exact (pow_pos (by norm_num : (0 : ℕ) < 2) k).ne' h2.symm

/-- Witness for C8 at the concrete kind `0x01` and payload `[8, 0]`. -/
theorem claim8_checksum_roundtrip_witness :
    ParseMessage (buildFrame 1 [8, 0]) = .ok 1 [8, 0] ∧
    ∀ k : Nat, k < 8 →
      ParseMessage (frameBytes 1 [8, 0] (frameChecksum 1 [8, 0] ^^^ 2 ^ k)) =
        .err .invalidChecksum :=
  claim8_checksum_roundtrip 1 [8, 0] (by decide) (by decide) (by decide)

/-! ## Orientation decoding theorems -/

/-- C6 counterexample: at the wire quaternion `(1/2, 1/2, 0, 0)` the
root-package `quaternionToFaces` (used by the root `DecodeOrientation`)
yields `("U", "D")` from the raw components, while the faces computed
from the normalised components (the `internal/protocol` variant) are
`("R", "B")`: the root decoder does not normalise before deriving the
faces. -/
theorem claim6_counterexample :
    quaternionToFaces (1/2) (1/2) 0 0 ≠ protocolQuaternionToFaces (1/2) (1/2) 0 0 := by
  have h1 : quaternionToFaces (1/2) (1/2) 0 0 = ("U", "D") := by
    norm_num [quaternionToFaces, vectorToFace]
  have h2 : protocolQuaternionToFaces (1/2) (1/2) 0 0 = ("R", "B") := by
    norm_num [protocolQuaternionToFaces, vectorToFace]
  rw [h1, h2]
  simp

/-- C6 amended: the `internal/protocol` `quaternionToFaces` normalises
the quaternion before deriving the faces — equivalently, its derived
faces are invariant under scaling all four wire components by any
non-zero factor (with normalisation skipped only for the zero
quaternion); the root-package variant computes the faces from the raw
components, as the counterexample shows. -/
theorem claim6_protocol_normalises (x y z w c : ℚ) (hc : c ≠ 0) :
    protocolQuaternionToFaces (c * x) (c * y) (c * z) (c * w) =
      protocolQuaternionToFaces x y z w := by
  have hc2 : 0 < c * c := by
    rcases lt_or_gt_of_ne hc with h | h
    · exact mul_pos_of_neg_of_neg h h
    · exact mul_pos h h
  have hS : c * x * (c * x) + c * y * (c * y) + c * z * (c * z) + c * w * (c * w)
      = (c * c) * (x * x + y * y + z * z + w * w) := by ring
  by_cases hpos : 0 < x * x + y * y + z * z + w * w
  · have hpos' : 0 < c * x * (c * x) + c * y * (c * y) + c * z * (c * z) + c * w * (c * w) := by
      rw [hS]
      exact mul_pos hc2 hpos
    have hv : ∀ a₁ a₂ a₃ b₁ b₂ b₃ : ℚ, a₁ = b₁ → a₂ = b₂ → a₃ = b₃ →
        vectorToFace a₁ a₂ a₃ = vectorToFace b₁ b₂ b₃ := by
      intro a₁ a₂ a₃ b₁ b₂ b₃ h₁ h₂ h₃
      rw [h₁, h₂, h₃]
    simp only [protocolQuaternionToFaces]
    rw [if_pos hpos', if_pos hpos]
    refine congrArg₂ Prod.mk (hv _ _ _ _ _ _ ?_ ?_ ?_) (hv _ _ _ _ _ _ ?_ ?_ ?_) <;>
      · field_simp
        ring
  · have h0 : x * x + y * y + z * z + w * w = 0 :=
      le_antisymm (not_lt.mp hpos)
        (add_nonneg (add_nonneg (add_nonneg (mul_self_nonneg x) (mul_self_nonneg y))
          (mul_self_nonneg z)) (mul_self_nonneg w))
    have hx : x = 0 := by
      have hxx : x * x = 0 := by nlinarith [mul_self_nonneg y, mul_self_nonneg z, mul_self_nonneg w]
      exact mul_self_eq_zero.mp hxx
    have hy : y = 0 := by
      have hyy : y * y = 0 := by nlinarith [mul_self_nonneg x, mul_self_nonneg z, mul_self_nonneg w]
      exact mul_self_eq_zero.mp hyy
    have hz : z = 0 := by
      have hzz : z * z = 0 := by nlinarith [mul_self_nonneg x, mul_self_nonneg y, mul_self_nonneg w]
      exact mul_self_eq_zero.mp hzz
    have hw : w = 0 := by
      have hww : w * w = 0 := by nlinarith [mul_self_nonneg x, mul_self_nonneg y, mul_self_nonneg z]
      exact mul_self_eq_zero.mp hww
    subst hx hy hz hw
    norm_num

/-- Witness for the amended C6: doubling the wire components of
`(1/2, 1/2, 0, 0)` leaves the protocol-variant faces unchanged. -/
theorem claim6_protocol_normalises_witness :
    protocolQuaternionToFaces (2 * (1/2)) (2 * (1/2)) (2 * 0) (2 * 0) =
      protocolQuaternionToFaces (1/2) (1/2) 0 0 :=
  claim6_protocol_normalises (1/2) (1/2) 0 0 2 (by norm_num)
